import Mathlib

/-!
Verification of the bmc-secret-operator synchronization engine.

The definitions below are a shallow embedding of the Go sources:
  internal/secretbackend/vault/vault.go   (VaultBackend)
  internal/secretbackend/multi_engine.go  (EngineBackend, parseSyncLabel)
  internal/secretbackend/factory.go       (BackendFactory, InvalidateCache)
  internal/controller/bmcresolver/resolver.go
  internal/controller/bmcsecret_controller.go

Go string maps are modelled as association lists (first binding wins,
mirroring the unique-key property of a Go map).  Fallible Go calls are
modelled with Except/Option.  Remote-store reads are modelled
deterministically from a store state; write and delete calls may be
injected with failures, as the controller treats them as fallible.
-/

namespace BMCSecretOperator

/-- Go map lookup on an association list (keys are unique in a Go map;
the first binding wins). -/
def lookupL {β : Type} : List (String × β) → String → Option β
  | [], _ => none
  | (k, v) :: rest, key => if k = key then some v else lookupL rest key

/-- Label set of a Kubernetes object (`map[string]string`). -/
abbrev Labels := List (String × String)

/-- Value stored in a secret (`map[string]any`); the controller only ever
inspects whether a value is a string, so other dynamic types collapse. -/
inductive VAny
  | str (s : String)
  | other
deriving DecidableEq

/-- Secret payload (`map[string]any`). -/
abbrev SecretData := List (String × VAny)

/-- Remote store content: logical path to stored payload. -/
abbrev Store := List (String × SecretData)

/-- Go strings.Contains needle check on char lists: prefix test. -/
def isPrefixL : List Char → List Char → Bool
  | [], _ => true
  | _ :: _, [] => false
  | a :: as, b :: bs => a == b && isPrefixL as bs

/-- Go strings.Contains on char lists (haystack second argument). -/
def containsL (needle : List Char) : List Char → Bool
  | [] => needle.isEmpty
  | c :: rest => isPrefixL needle (c :: rest) || containsL needle rest

/-- Model of Go strings.Contains. -/
def strContains (s needle : String) : Bool :=
  containsL needle.data s.data

/-! ## VaultBackend (internal/secretbackend/vault/vault.go) -/

/-- Mount entry as returned by the Vault sys/mounts listing: declared type
and option map (which may be absent, i.e. nil in Go). -/
structure Mount where
  mtype : String
  options : Option (List (String × String))
deriving DecidableEq

/-- buildPath from vault.go lines 192-198: KV v2 inserts a fixed data
segment between mount and logical path. -/
def buildPath (mountPath : String) (isKVv2 : Bool) (path : String) : String :=
  if isKVv2 then mountPath ++ "/data/" ++ path else mountPath ++ "/" ++ path

/-- detectKVVersion from vault.go lines 200-225.  Go map indexing yields
the empty string for a missing key; the nil-map guard is the
`options.isSome` conjunct. -/
def detectKVVersion (mounts : List (String × Mount)) (mountPath : String) :
    Except String Bool :=
  match lookupL mounts (mountPath ++ "/") with
  | none => .error ("mount " ++ mountPath ++ " not found")
  | some m =>
    let version : String :=
      match m.options with
      | none => ""
      | some opts =>
        match lookupL opts "version" with
        | some v => v
        | none => ""
    if m.options.isSome && version == "2" then .ok true
    else if m.options.isSome && version == "1" then .ok false
    else .ok (m.mtype == "kv" || m.mtype == "generic")

/-- Declared version option of a mount (none when the option map is nil or
lacks the key). -/
def mountVersionOpt (m : Mount) : Option String :=
  match m.options with
  | none => none
  | some opts => lookupL opts "version"

/-- Result of one low-level Vault client read at a full path: data, a
not-found response, or a transport failure with an error message. -/
inductive ClientRead
  | ok (data : SecretData)
  | notFound
  | fail (msg : String)
deriving DecidableEq

/-- Low-level Vault client: what a read at each full path returns. -/
abbrev VClient := String → ClientRead

/-- ReadSecret from vault.go lines 125-152.  On a missing secret the KV v1
branch renders the not-found message itself; the KV v2 client surfaces a
not-found error that the method wraps.  Both texts contain the phrase
checked by SecretExists. -/
def ReadSecret (cl : VClient) (mountPath : String) (isKVv2 : Bool)
    (path : String) : Except String SecretData :=
  let fullPath := buildPath mountPath isKVv2 path
  match cl fullPath with
  | .ok d => .ok d
  | .notFound =>
    if isKVv2 then
      .error ("failed to read secret from vault at " ++ fullPath ++ ": secret not found")
    else
      .error ("secret not found at " ++ fullPath)
  | .fail msg =>
    .error ("failed to read secret from vault at " ++ fullPath ++ ": " ++ msg)

/-- SecretExists from vault.go lines 174-184: a read whose error text
contains the not-found phrase reports non-existence; any other read error
propagates. -/
def SecretExists (cl : VClient) (mountPath : String) (isKVv2 : Bool)
    (path : String) : Except String Bool :=
  match ReadSecret cl mountPath isKVv2 path with
  | .ok _ => .ok true
  | .error e =>
    if strContains e "secret not found" then .ok false else .error e

/-! ## BMC resolver (internal/controller/bmcresolver/resolver.go) -/

/-- Device record (metal BMC resource) with the fields the resolver
consults: identity, label set, optional declared hostname, and the name
of an optional endpoint reference. -/
structure BMC where
  name : String
  labels : Labels
  hostname : Option String
  endpointRefName : Option String
deriving DecidableEq

/-- ExtractRegionFromBMC from resolver.go lines 45-56: label lookup by the
configured key; a missing label, a nil label map, or an empty label value
all yield the sentinel. -/
def ExtractRegionFromBMC (bmc : BMC) (regionLabelKey : String) : String :=
  match lookupL bmc.labels regionLabelKey with
  | none => "unknown"
  | some region => if region == "" then "unknown" else region

/-- GetHostnameFromBMC from resolver.go lines 59-71: declared hostname,
else endpoint reference name, else the BMC name itself. -/
def GetHostnameFromBMC (bmc : BMC) : String :=
  match bmc.hostname with
  | some h =>
    if h != "" then h
    else
      match bmc.endpointRefName with
      | some n => if n != "" then n else bmc.name
      | none => bmc.name
  | none =>
    match bmc.endpointRefName with
    | some n => if n != "" then n else bmc.name
    | none => bmc.name

/-! ## Path templating (internal/secretbackend pathbuilder) -/

/-- Variables substituted into a path template. -/
structure PathVariables where
  region : String
  hostname : String
  username : String
deriving DecidableEq

/-- Compiled path template: rendering may fail with a template execution
error (the template engine is abstracted as a function). -/
abbrev PathBuilderFn := PathVariables → Except String String

/-! ## Engine routing (internal/secretbackend/multi_engine.go) -/

/-- parseSyncLabel splitting (strings.SplitN with separator count 2):
split at the first occurrence of the separator char, if any. -/
def splitEq : List Char → Option (List Char × List Char)
  | [] => none
  | c :: rest =>
    if c = '=' then some ([], rest)
    else
      match splitEq rest with
      | some (a, b) => some (c :: a, b)
      | none => none

/-- parseSyncLabel from multi_engine.go lines 110-116: a spec with no
separator is a bare key (empty value); otherwise key and value are the
parts around the first separator. -/
def parseSyncLabel (syncLabel : String) : String × String :=
  match splitEq syncLabel.data with
  | some (k, v) => (⟨k⟩, ⟨v⟩)
  | none => (syncLabel, "")

/-- MatchesLabels from multi_engine.go lines 38-52: nil labels never
match; an empty parsed value means key-existence, otherwise exact value
match is required. -/
def MatchesLabels (syncLabelKey syncLabelVal : String) (labels : Option Labels) : Bool :=
  match labels with
  | none => false
  | some ls =>
    if syncLabelVal == "" then (lookupL ls syncLabelKey).isSome
    else
      match lookupL ls syncLabelKey with
      | some v => v == syncLabelVal
      | none => false

/-- Matching of a raw sync-label spec, as wired in parseSecretEngineConfig
(the engine stores the parsed key and value of its spec). -/
def matchesSyncSpec (spec : String) (labels : Option Labels) : Bool :=
  MatchesLabels (parseSyncLabel spec).1 (parseSyncLabel spec).2 labels

/-! ## Reconciler (internal/controller/bmcsecret_controller.go)

The Backend interface is modelled by a store state whose reads and
existence checks are deterministic (SecretExists is false exactly when
ReadSecret reports not-found, the error-free store contract), while
write and delete calls may fail per path, which is what the controller
handles explicitly. -/

/-- Backend state seen by the controller: store content plus injected
write/delete failures. -/
structure SimBackend where
  store : Store
  writeFails : String → Bool
  deleteFails : String → Bool

/-- Store update performed by a successful WriteSecret. -/
def storeInsert (st : Store) (path : String) (d : SecretData) : Store :=
  match st with
  | [] => [(path, d)]
  | (p, v) :: rest => if p = path then (path, d) :: rest else (p, v) :: storeInsert rest path d

/-- Store update performed by a successful DeleteSecret. -/
def storeRemove (st : Store) (path : String) : Store :=
  st.filter (fun e => e.1 != path)

/-- needsUpdate from bmcsecret_controller.go lines 621-645, over the
error-free store: a write is needed when the path does not exist, when
the stored password field is missing or not a string, or when the stored
password differs from the current one. -/
def needsUpdate (b : SimBackend) (path password : String) : Bool :=
  match lookupL b.store path with
  | none => true
  | some currentData =>
    match lookupL currentData "password" with
    | some (VAny.str currentPassword) => currentPassword != password
    | _ => true

/-- Per-destination outcome recorded in the status record. -/
inductive SyncOutcome
  | success
  | failed
deriving DecidableEq

/-- BackendPath entry appended per (destination, device) pair. -/
structure PathEntry where
  path : String
  bmcName : String
  region : String
  hostname : String
  username : String
  syncStatus : SyncOutcome
  errorMessage : Option String
deriving DecidableEq

/-- Accumulated state of the sync loop in reconcileSingleEngine lines
216-315 (also the inner loop body of reconcileMultiEngine): backend
state, status entries, counters, write calls issued, and store reads
performed by idempotency checks. -/
structure SyncAcc where
  backend : SimBackend
  backendPaths : List PathEntry
  syncSuccess : Nat
  syncErrors : Nat
  writeCalls : List String
  storeReads : Nat

/-- Loop body of reconcileSingleEngine for one BMC (lines 222-315):
compute region and hostname, render the path, run the idempotency check,
and write only when needed; every error isolates to this pair. -/
def processBMC (pb : PathBuilderFn) (regionLabelKey username password : String)
    (acc : SyncAcc) (bmc : BMC) : SyncAcc :=
  let region := ExtractRegionFromBMC bmc regionLabelKey
  let hostname := GetHostnameFromBMC bmc
  match pb ⟨region, hostname, username⟩ with
  | .error e =>
    { acc with
      backendPaths := acc.backendPaths ++
        [⟨"", bmc.name, region, hostname, username, .failed, some e⟩],
      syncErrors := acc.syncErrors + 1 }
  | .ok path =>
    let reads := if (lookupL acc.backend.store path).isSome then 2 else 1
    if needsUpdate acc.backend path password then
      if acc.backend.writeFails path then
        { acc with
          backendPaths := acc.backendPaths ++
            [⟨path, bmc.name, region, hostname, username, .failed,
              some ("failed to write secret at " ++ path)⟩],
          syncErrors := acc.syncErrors + 1,
          writeCalls := acc.writeCalls ++ [path],
          storeReads := acc.storeReads + reads }
      else
        { acc with
          backend := { acc.backend with
            store := storeInsert acc.backend.store path
              [("username", VAny.str username), ("password", VAny.str password)] },
          backendPaths := acc.backendPaths ++
            [⟨path, bmc.name, region, hostname, username, .success, none⟩],
          syncSuccess := acc.syncSuccess + 1,
          writeCalls := acc.writeCalls ++ [path],
          storeReads := acc.storeReads + reads }
    else
      { acc with
        backendPaths := acc.backendPaths ++
          [⟨path, bmc.name, region, hostname, username, .success, none⟩],
        syncSuccess := acc.syncSuccess + 1,
        storeReads := acc.storeReads + reads }

/-- Fresh accumulator at the start of a pass. -/
def initAcc (b : SimBackend) : SyncAcc :=
  ⟨b, [], 0, 0, [], 0⟩

/-- Sync loop of reconcileSingleEngine over all referencing BMCs. -/
def reconcileSingleEngine (pb : PathBuilderFn) (regionLabelKey : String)
    (b : SimBackend) (bmcs : List BMC) (username password : String) : SyncAcc :=
  bmcs.foldl (processBMC pb regionLabelKey username password) (initAcc b)

/-! ## Sync status record (updateSyncStatus, setCondition; lines 691-793) -/

/-- Coarse condition stored on the status record. -/
structure Condition where
  ctype : String
  statusTrue : Bool
  reason : String
deriving DecidableEq

/-- Condition derivation of updateSyncStatus lines 734-762. -/
def deriveCondition (successfulPaths failedPaths : Nat) : Condition :=
  if failedPaths = 0 then ⟨"Synced", true, "AllPathsSynced"⟩
  else if successfulPaths > 0 then ⟨"Synced", false, "PartialSync"⟩
  else ⟨"Synced", false, "SyncFailed"⟩

/-- setCondition from lines 776-793: replace the first condition of the
same type only when status or reason differs, else append. -/
def setCondition : List Condition → Condition → List Condition
  | [], nc => [nc]
  | c :: rest, nc =>
    if c.ctype = nc.ctype then
      if c.statusTrue != nc.statusTrue || c.reason != nc.reason then nc :: rest
      else c :: rest
    else c :: setCondition rest nc

/-- Persisted BMCSecretSyncStatus content. -/
structure SyncStatusRecord where
  backendPaths : List PathEntry
  totalPaths : Nat
  successfulPaths : Nat
  failedPaths : Nat
  conditions : List Condition
deriving DecidableEq

/-- updateSyncStatus lines 691-773 (create-if-absent then update): the
counters are overwritten and the derived condition merged into the
existing condition list. -/
def updateSyncStatus (prev : Option SyncStatusRecord) (entries : List PathEntry)
    (totalPaths successfulPaths failedPaths : Nat) : SyncStatusRecord :=
  let base := match prev with
    | some r => r
    | none => ⟨[], 0, 0, 0, []⟩
  { backendPaths := entries,
    totalPaths := totalPaths,
    successfulPaths := successfulPaths,
    failedPaths := failedPaths,
    conditions := setCondition base.conditions (deriveCondition successfulPaths failedPaths) }

/-! ## Deletion handling (handleDeletion; lines 502-618) -/

/-- Environment of one deletion pass: availability of backend, path
builder, region key, credential extraction, and BMC discovery, plus the
rendering inputs.  Registry-side operations (status delete, finalizer
update) are modelled error-free. -/
structure DeletionCtx where
  backendAvail : Bool
  pathBuilderAvail : Bool
  regionKeyAvail : Bool
  credsOk : Bool
  findOk : Bool
  pb : PathBuilderFn
  regionLabelKey : String
  username : String
  bmcs : List BMC

/-- Observable result of a deletion pass. -/
structure DeletionResult where
  deleteCalls : List String
  syncStatusRemoved : Bool
  finalizerRemoved : Bool
deriving DecidableEq

/-- Cleanup loop of handleDeletion lines 588-609: every successfully
rendered path receives a delete call; a path-build failure or a delete
failure is skipped past, continuing with the other deletions. -/
def deletionLoop (pb : PathBuilderFn) (regionLabelKey username : String)
    (b : SimBackend) : List BMC → List String × SimBackend
  | [] => ([], b)
  | bmc :: rest =>
    let region := ExtractRegionFromBMC bmc regionLabelKey
    let hostname := GetHostnameFromBMC bmc
    match pb ⟨region, hostname, username⟩ with
    | .error _ => deletionLoop pb regionLabelKey username b rest
    | .ok path =>
      let b1 := if b.deleteFails path then b
                else { b with store := storeRemove b.store path }
      let r := deletionLoop pb regionLabelKey username b1 rest
      (path :: r.1, r.2)

/-- handleDeletion lines 502-618: without the finalizer nothing happens;
otherwise the status record is deleted first, and any failure to acquire
the backend, the path builder, the region key, the credentials, or the
BMC list still removes the finalizer, skipping only the remote deletes. -/
def handleDeletion (ctx : DeletionCtx) (finalizerPresent syncStatusExists : Bool)
    (b : SimBackend) : DeletionResult × SimBackend :=
  if !finalizerPresent then (⟨[], false, false⟩, b)
  else
    let removed := syncStatusExists
    if !ctx.backendAvail then (⟨[], removed, true⟩, b)
    else if !ctx.pathBuilderAvail then (⟨[], removed, true⟩, b)
    else if !ctx.regionKeyAvail then (⟨[], removed, true⟩, b)
    else if !ctx.credsOk then (⟨[], removed, true⟩, b)
    else if !ctx.findOk then (⟨[], removed, true⟩, b)
    else
      let r := deletionLoop ctx.pb ctx.regionLabelKey ctx.username b ctx.bmcs
      (⟨r.1, removed, true⟩, r.2)

/-! ## Backend factory cache (internal/secretbackend/factory.go) -/

/-- Cached default backend, as far as InvalidateCache observes it. -/
structure CachedBackend where
  closeFails : Bool
deriving DecidableEq

/-- Cached engine backend entry with its close behavior. -/
structure EngineEntry where
  name : String
  closeFails : Bool
deriving DecidableEq

/-- Loaded configuration snapshot fields relevant to the cache. -/
structure FactoryConfig where
  pathTemplate : String
  regionLabelKey : String
  syncLabel : String
deriving DecidableEq

/-- Mutable state of the BackendFactory guarded by its lock. -/
structure FactoryState where
  backend : Option CachedBackend
  engineBackends : List EngineEntry
  config : Option FactoryConfig
  pathBuilder : Option String
deriving DecidableEq

/-- Engine-close phase of InvalidateCache (factory.go lines 433-446): the
loop returns on the first close failure, leaving the engine list, config
and path builder untouched; only when every close succeeds are they
cleared. -/
def closeEnginesAndClear (s : FactoryState) : FactoryState × Option String :=
  match s.engineBackends.find? (fun eb => eb.closeFails) with
  | some eb => (s, some ("failed to close engine backend " ++ eb.name))
  | none => ({ s with engineBackends := [], config := none, pathBuilder := none }, none)

/-- InvalidateCache from factory.go lines 421-448: close the default
backend first, returning its error without clearing anything further;
then close engine backends and clear the snapshot. -/
def InvalidateCache (s : FactoryState) : FactoryState × Option String :=
  match s.backend with
  | some b =>
    if b.closeFails then
      (s, some "failed to close backend during cache invalidation")
    else closeEnginesAndClear { s with backend := none }
  | none => closeEnginesAndClear s

/-! ## Top-level Reconcile (bmcsecret_controller.go lines 73-179) -/

/-- Credential record (BMCSecret) as the reconciler observes it.  The
credential extraction source is outside this repository snapshot; its
result is modelled as the optional username and password pair. -/
structure CredentialRecord where
  name : String
  labels : Option Labels
  deletionTimestamp : Bool
  finalizer : Bool
  creds : Option (String × String)
deriving DecidableEq

/-- One configured engine binding with its rendered destination. -/
structure EngineModel where
  name : String
  pb : PathBuilderFn
  backend : SimBackend
  syncLabelSpec : String

/-- Reconciliation context: cached configuration and discovery results. -/
structure ReconcileCtx where
  syncLabel : String
  regionLabelKey : String
  pb : PathBuilderFn
  defaultBackend : SimBackend
  hasMultiEngine : Bool
  engines : List EngineModel
  bmcs : List BMC

/-- Observable effects of one reconciliation pass over a live record. -/
structure ReconcileOutcome where
  skipped : Bool
  handledDeletion : Bool
  finalizerAdded : Bool
  writeCalls : List String
  storeReads : Nat
  statusUpserted : Bool
deriving DecidableEq

/-- Sync-label skip test of Reconcile lines 110-116: a nil label map or
an empty-string value at the sync-label key counts as lacking the label
(Go map indexing yields the empty string for a missing key). -/
def lacksSyncLabel (labels : Option Labels) (syncLabel : String) : Bool :=
  match labels with
  | none => true
  | some ls =>
    match lookupL ls syncLabel with
    | none => true
    | some v => v == ""

/-- Event-filter predicate installed by SetupWithManager lines 656-665:
key existence alone, any value. -/
def labelPredicate (syncLabel : String) (labels : Option Labels) : Bool :=
  match labels with
  | none => false
  | some ls => (lookupL ls syncLabel).isSome

/-- Engine filter of GetEngineBackends (factory.go filterEnginesByLabels). -/
def filterEnginesByLabels (engines : List EngineModel) (labels : Option Labels) :
    List EngineModel :=
  engines.filter (fun e => matchesSyncSpec e.syncLabelSpec labels)

/-- Inner sync pass of reconcileMultiEngine for one engine. -/
def runEngine (regionLabelKey username password : String) (bmcs : List BMC)
    (eng : EngineModel) : SyncAcc :=
  bmcs.foldl (processBMC eng.pb regionLabelKey username password) (initAcc eng.backend)

/-- Reconcile lines 73-179: fetch is assumed successful (an absent record
is a no-op upstream); then sync-label skip, deletion dispatch, finalizer
add, discovery, extraction, and routing into the single- or multi-engine
sync loop.  Status upsert happens only when a sync loop ran. -/
def Reconcile (ctx : ReconcileCtx) (rec : CredentialRecord) : ReconcileOutcome :=
  if ctx.syncLabel != "" && lacksSyncLabel rec.labels ctx.syncLabel then
    ⟨true, false, false, [], 0, false⟩
  else if rec.deletionTimestamp then
    ⟨false, true, false, [], 0, false⟩
  else
    let finalizerAdded := !rec.finalizer
    if ctx.bmcs.isEmpty then
      ⟨false, false, finalizerAdded, [], 0, false⟩
    else
      match rec.creds with
      | none => ⟨false, false, finalizerAdded, [], 0, false⟩
      | some (username, password) =>
        if ctx.hasMultiEngine then
          let matched := filterEnginesByLabels ctx.engines rec.labels
          if matched.isEmpty then
            ⟨false, false, finalizerAdded, [], 0, false⟩
          else
            let accs := matched.map (runEngine ctx.regionLabelKey username password ctx.bmcs)
            ⟨false, false, finalizerAdded,
              (accs.map (fun a => a.writeCalls)).flatten,
              (accs.map (fun a => a.storeReads)).sum, true⟩
        else
          let acc := reconcileSingleEngine ctx.pb ctx.regionLabelKey
            ctx.defaultBackend ctx.bmcs username password
          ⟨false, false, finalizerAdded, acc.writeCalls, acc.storeReads, true⟩

/-! ## Helper lemmas -/

theorem isPrefixL_append (as bs cs : List Char) (h : isPrefixL as bs = true) :
    isPrefixL as (bs ++ cs) = true := by
  induction as generalizing bs with
  | nil => rfl
  | cons a as ih =>
    cases bs with
    | nil => simp [isPrefixL] at h
    | cons b bs =>
      simp only [isPrefixL, Bool.and_eq_true] at h ⊢
      exact ⟨h.1, ih bs h.2⟩

theorem containsL_of_isPrefixL (n l : List Char) (h : isPrefixL n l = true) :
    containsL n l = true := by
  cases l with
  | nil =>
    cases n with
    | nil => rfl
    | cons a as => simp [isPrefixL] at h
  | cons c rest =>
    simp only [containsL, Bool.or_eq_true]
    exact Or.inl h

theorem containsL_append_right (n xs ys : List Char) (h : containsL n ys = true) :
    containsL n (xs ++ ys) = true := by
  induction xs with
  | nil => simpa using h
  | cons x xs ih =>
    simp only [List.cons_append, containsL, Bool.or_eq_true]
    exact Or.inr ih

theorem splitEq_eq_none (l : List Char) (h : '=' ∉ l) : splitEq l = none := by
  induction l with
  | nil => rfl
  | cons c rest ih =>
    simp only [List.mem_cons, not_or] at h
    simp only [splitEq, if_neg (Ne.symm h.1), ih h.2]

theorem splitEq_eq_some (k v : List Char) (h : '=' ∉ k) :
    splitEq (k ++ '=' :: v) = some (k, v) := by
  induction k with
  | nil => simp [splitEq]
  | cons c rest ih =>
    simp only [List.mem_cons, not_or] at h
    simp only [List.cons_append, splitEq, List.append_eq, if_neg (Ne.symm h.1), ih h.2]

theorem needsUpdate_iff (b : SimBackend) (path password : String) :
    needsUpdate b path password = true ↔
      (lookupL b.store path = none ∨
       (∃ d, lookupL b.store path = some d ∧
          ∀ s, lookupL d "password" ≠ some (VAny.str s)) ∨
       (∃ d s, lookupL b.store path = some d ∧
          lookupL d "password" = some (VAny.str s) ∧ s ≠ password)) := by
  unfold needsUpdate
  cases hs : lookupL b.store path with
  | none => simp
  | some d =>
    cases hp : lookupL d "password" with
    | none =>
      simp only [hs, hp]
      constructor
      · intro _
        exact Or.inr (Or.inl ⟨d, rfl, fun s hcontra => by simp [hp] at hcontra⟩)
      · intro _; trivial
    | some v =>
      cases v with
      | str s =>
        simp only [hs, hp, bne_iff_ne]
        constructor
        · intro hne
          exact Or.inr (Or.inr ⟨d, s, rfl, hp, hne⟩)
        · rintro (h | ⟨d2, hd2, hall⟩ | ⟨d2, s2, hd2, hp2, hne⟩)
          · exact absurd h (by simp)
          · cases Option.some.inj hd2
            exact absurd hp (hall s)
          · cases Option.some.inj hd2
            rw [hp] at hp2
            cases Option.some.inj hp2
            exact hne
      | other =>
        simp only [hs, hp]
        constructor
        · intro _
          refine Or.inr (Or.inl ⟨d, rfl, fun s hcontra => ?_⟩)
          rw [hp] at hcontra
          cases hcontra
        · intro _; trivial

theorem strContains_notFound_v1 (fullPath : String) :
    strContains ("secret not found at " ++ fullPath) "secret not found" = true := by
  unfold strContains
  rw [String.data_append]
  exact containsL_of_isPrefixL _ _ (isPrefixL_append _ _ _ (by decide))

theorem strContains_notFound_v2 (pre fullPath : String) :
    strContains (pre ++ fullPath ++ ": secret not found") "secret not found" = true := by
  unfold strContains
  rw [String.data_append]
  exact containsL_append_right _ _ _ (by decide)

theorem processBMC_counts (pb : PathBuilderFn) (regionLabelKey username password : String)
    (acc : SyncAcc) (bmc : BMC) :
    (processBMC pb regionLabelKey username password acc bmc).backendPaths.length
        = acc.backendPaths.length + 1 ∧
    (processBMC pb regionLabelKey username password acc bmc).syncSuccess
        + (processBMC pb regionLabelKey username password acc bmc).syncErrors
      = acc.syncSuccess + acc.syncErrors + 1 := by
  simp only [processBMC]
  split
  · refine ⟨?_, ?_⟩ <;> simp <;> try omega
  · split
    · split
      · refine ⟨?_, ?_⟩ <;> simp <;> try omega
      · refine ⟨?_, ?_⟩ <;> simp <;> try omega
    · refine ⟨?_, ?_⟩ <;> simp <;> try omega

theorem foldl_counts (pb : PathBuilderFn) (regionLabelKey username password : String)
    (bmcs : List BMC) (acc : SyncAcc) :
    (bmcs.foldl (processBMC pb regionLabelKey username password) acc).backendPaths.length
        = acc.backendPaths.length + bmcs.length ∧
    (bmcs.foldl (processBMC pb regionLabelKey username password) acc).syncSuccess
        + (bmcs.foldl (processBMC pb regionLabelKey username password) acc).syncErrors
      = acc.syncSuccess + acc.syncErrors + bmcs.length := by
  induction bmcs generalizing acc with
  | nil => simp
  | cons bmc rest ih =>
    simp only [List.foldl_cons, List.length_cons]
    obtain ⟨ih1, ih2⟩ := ih (processBMC pb regionLabelKey username password acc bmc)
    obtain ⟨s1, s2⟩ := processBMC_counts pb regionLabelKey username password acc bmc
    constructor
    · rw [ih1, s1]; omega
    · rw [ih2, s2]; omega

theorem deletionLoop_length (pb : PathBuilderFn) (regionLabelKey username : String)
    (bmcs : List BMC) (b : SimBackend)
    (h : ∀ bmc ∈ bmcs, ∃ p,
      pb ⟨ExtractRegionFromBMC bmc regionLabelKey, GetHostnameFromBMC bmc, username⟩
        = .ok p) :
    (deletionLoop pb regionLabelKey username b bmcs).1.length = bmcs.length := by
  induction bmcs generalizing b with
  | nil => rfl
  | cons bmc rest ih =>
    obtain ⟨p, hp⟩ := h bmc (List.mem_cons_self bmc rest)
    have hrest : ∀ x ∈ rest, ∃ q,
        pb ⟨ExtractRegionFromBMC x regionLabelKey, GetHostnameFromBMC x, username⟩
          = .ok q :=
      fun x hx => h x (List.mem_cons_of_mem bmc hx)
    simp only [deletionLoop, hp, List.length_cons]
    rw [ih _ hrest]

/-! ## Claim theorems -/

/-- C5: for every logical path the store builds the full remote path as
mount/data/path when the mount's version option is the string 2, and
mount/path when it is 1; when the version option is absent, the v2 schema
is chosen exactly when the mount type is kv or generic. -/
theorem c5_kv_schema_paths (mounts : List (String × Mount)) (mountPath path : String)
    (m : Mount) (hm : lookupL mounts (mountPath ++ "/") = some m) :
    (mountVersionOpt m = some "2" →
       detectKVVersion mounts mountPath = .ok true ∧
       buildPath mountPath true path = mountPath ++ "/data/" ++ path) ∧
    (mountVersionOpt m = some "1" →
       detectKVVersion mounts mountPath = .ok false ∧
       buildPath mountPath false path = mountPath ++ "/" ++ path) ∧
    (mountVersionOpt m = none →
       detectKVVersion mounts mountPath
         = .ok (m.mtype == "kv" || m.mtype == "generic")) := by
  refine ⟨fun hv => ?_, fun hv => ?_, fun hv => ?_⟩
  · cases hopt : m.options with
    | none => simp [mountVersionOpt, hopt] at hv
    | some opts =>
      simp only [mountVersionOpt, hopt] at hv
      exact ⟨by simp [detectKVVersion, hm, hopt, hv], by simp [buildPath]⟩
  · cases hopt : m.options with
    | none => simp [mountVersionOpt, hopt] at hv
    | some opts =>
      simp only [mountVersionOpt, hopt] at hv
      exact ⟨by simp [detectKVVersion, hm, hopt, hv], by simp [buildPath]⟩
  · cases hopt : m.options with
    | none => simp [detectKVVersion, hm, hopt]
    | some opts =>
      simp only [mountVersionOpt, hopt] at hv
      simp [detectKVVersion, hm, hopt, hv]

/-- C5 witness: concrete mounts exercising all three hypothesis forms. -/
theorem c5_kv_schema_paths_witness :
    (detectKVVersion [("secret/", ⟨"kv", some [("version", "2")]⟩)] "secret" = .ok true ∧
     buildPath "secret" true "bmc/r/h/u" = "secret/data/bmc/r/h/u") ∧
    (detectKVVersion [("kv1/", ⟨"kv", some [("version", "1")]⟩)] "kv1" = .ok false ∧
     buildPath "kv1" false "bmc/r/h/u" = "kv1/bmc/r/h/u") ∧
    detectKVVersion [("plain/", ⟨"kv", none⟩)] "plain" = .ok true := by
  refine ⟨?_, ?_, ?_⟩
  · exact (c5_kv_schema_paths [("secret/", ⟨"kv", some [("version", "2")]⟩)]
      "secret" "bmc/r/h/u" ⟨"kv", some [("version", "2")]⟩ (by decide)).1 (by decide)
  · exact (c5_kv_schema_paths [("kv1/", ⟨"kv", some [("version", "1")]⟩)]
      "kv1" "bmc/r/h/u" ⟨"kv", some [("version", "1")]⟩ (by decide)).2.1 (by decide)
  · exact (c5_kv_schema_paths [("plain/", ⟨"kv", none⟩)]
      "plain" "x" ⟨"kv", none⟩ (by decide)).2.2 (by decide)

/-- C9 counterexample: a device carrying the region label with an empty
value yields the sentinel, not the (empty) label value, so the computed
region does not always equal the label value when the label is present. -/
theorem c9_region_counterexample :
    ExtractRegionFromBMC ⟨"b1", [("region", "")], none, none⟩ "region" = "unknown" ∧
    lookupL (BMC.labels ⟨"b1", [("region", "")], none, none⟩) "region" = some "" ∧
    ("unknown" : String) ≠ "" := by
  refine ⟨by decide, by decide, by decide⟩

/-- C9 (amended): the computed region equals the label value at the
configured key when that value is nonempty, and equals the sentinel when
the label is absent or empty; the computed hostname is the first nonempty
of declared hostname, endpoint reference name, and the device name. -/
theorem c9_region_hostname (bmc : BMC) (regionLabelKey : String) :
    (lookupL bmc.labels regionLabelKey = none →
       ExtractRegionFromBMC bmc regionLabelKey = "unknown") ∧
    (lookupL bmc.labels regionLabelKey = some "" →
       ExtractRegionFromBMC bmc regionLabelKey = "unknown") ∧
    (∀ v, lookupL bmc.labels regionLabelKey = some v → v ≠ "" →
       ExtractRegionFromBMC bmc regionLabelKey = v) ∧
    (∀ h, bmc.hostname = some h → h ≠ "" → GetHostnameFromBMC bmc = h) ∧
    ((bmc.hostname = none ∨ bmc.hostname = some "") →
       ∀ n, bmc.endpointRefName = some n → n ≠ "" → GetHostnameFromBMC bmc = n) ∧
    ((bmc.hostname = none ∨ bmc.hostname = some "") →
       (bmc.endpointRefName = none ∨ bmc.endpointRefName = some "") →
       GetHostnameFromBMC bmc = bmc.name) := by
  refine ⟨fun hr => ?_, fun hr => ?_, fun v hr hv => ?_, fun h hh hne => ?_,
    fun hh n hn hne => ?_, fun hh hn => ?_⟩
  · simp [ExtractRegionFromBMC, hr]
  · simp [ExtractRegionFromBMC, hr]
  · simp [ExtractRegionFromBMC, hr, hv]
  · simp [GetHostnameFromBMC, hh, hne]
  · rcases hh with hh | hh <;> simp [GetHostnameFromBMC, hh, hn, hne]
  · rcases hh with hh | hh <;> rcases hn with hn | hn <;>
      simp [GetHostnameFromBMC, hh, hn]

/-- C9 witness: a device with a nonempty region label, one with the label
absent, and hostname fallbacks. -/
theorem c9_region_hostname_witness :
    ExtractRegionFromBMC ⟨"b1", [("region", "eu-de-1")], some "host1", none⟩ "region"
      = "eu-de-1" ∧
    ExtractRegionFromBMC ⟨"b2", [], none, none⟩ "region" = "unknown" ∧
    GetHostnameFromBMC ⟨"b1", [], some "host1", none⟩ = "host1" ∧
    GetHostnameFromBMC ⟨"b3", [], none, some "ep1"⟩ = "ep1" ∧
    GetHostnameFromBMC ⟨"b4", [], some "", none⟩ = "b4" := by
  refine ⟨?_, ?_, ?_, ?_, ?_⟩
  · exact (c9_region_hostname ⟨"b1", [("region", "eu-de-1")], some "host1", none⟩
      "region").2.2.1 "eu-de-1" (by decide) (by decide)
  · exact (c9_region_hostname ⟨"b2", [], none, none⟩ "region").1 (by decide)
  · exact (c9_region_hostname ⟨"b1", [], some "host1", none⟩ "r").2.2.2.1
      "host1" rfl (by decide)
  · exact (c9_region_hostname ⟨"b3", [], none, some "ep1"⟩ "r").2.2.2.2.1
      (Or.inl rfl) "ep1" rfl (by decide)
  · exact (c9_region_hostname ⟨"b4", [], some "", none⟩ "r").2.2.2.2.2
      (Or.inr rfl) (Or.inl rfl)

/-- C4 counterexample: with a cached backend whose close fails, cache
invalidation returns the close error and leaves the whole snapshot
(backend, config, path builder) cached, so a close failure does prevent
the cached state from being cleared. -/
theorem c4_invalidate_counterexample :
    (InvalidateCache ⟨some ⟨true⟩, [], some ⟨"tpl", "region", ""⟩, some "tpl"⟩).1
      = ⟨some ⟨true⟩, [], some ⟨"tpl", "region", ""⟩, some "tpl"⟩ ∧
    (InvalidateCache ⟨some ⟨true⟩, [], some ⟨"tpl", "region", ""⟩, some "tpl"⟩).1.config
      ≠ none ∧
    (InvalidateCache ⟨some ⟨true⟩, [], some ⟨"tpl", "region", ""⟩, some "tpl"⟩).2
      = some "failed to close backend during cache invalidation" := by
  refine ⟨by decide, by decide, by decide⟩

/-- C4 (amended): cache invalidation clears the whole snapshot only when
closing the outgoing store and every cached engine backend succeeds; a
close failure is reported as the returned error and aborts invalidation,
leaving the remaining cached state in place. -/
theorem c4_invalidate_clears_on_success (s : FactoryState) :
    ((∀ b, s.backend = some b → b.closeFails = false) →
     (∀ eb ∈ s.engineBackends, eb.closeFails = false) →
       InvalidateCache s = (⟨none, [], none, none⟩, none)) ∧
    (∀ b, s.backend = some b → b.closeFails = true →
       InvalidateCache s
         = (s, some "failed to close backend during cache invalidation")) := by
  constructor
  · intro hb he
    have hfind : ∀ t : FactoryState, t.engineBackends = s.engineBackends →
        closeEnginesAndClear t
          = (⟨t.backend, [], none, none⟩, none) := by
      intro t ht
      unfold closeEnginesAndClear
      have : t.engineBackends.find? (fun eb => eb.closeFails) = none := by
        rw [List.find?_eq_none]
        intro x hx
        simp [he x (ht ▸ hx)]
      rw [this]
    cases hs : s.backend with
    | none =>
      have := hfind s rfl
      simp only [InvalidateCache, hs]
      rw [this, hs]
    | some b =>
      have hbf := hb b hs
      simp only [InvalidateCache, hs, hbf]
      have := hfind { s with backend := none } rfl
      simp only [Bool.false_eq_true, if_false]
      rw [this]
  · intro b hs hbf
    simp only [InvalidateCache, hs, hbf, if_true]

/-- C4 witness: a fully successful invalidation clears everything. -/
theorem c4_invalidate_clears_on_success_witness :
    InvalidateCache ⟨some ⟨false⟩, [⟨"eng1", false⟩], some ⟨"tpl", "region", ""⟩, some "tpl"⟩
      = (⟨none, [], none, none⟩, none) ∧
    InvalidateCache ⟨some ⟨true⟩, [], none, none⟩
      = (⟨some ⟨true⟩, [], none, none⟩,
         some "failed to close backend during cache invalidation") := by
  constructor
  · exact (c4_invalidate_clears_on_success
      ⟨some ⟨false⟩, [⟨"eng1", false⟩], some ⟨"tpl", "region", ""⟩, some "tpl"⟩).1
      (by intro b hb; cases hb; rfl) (by intro eb heb; simp at heb; rw [heb])
  · exact (c4_invalidate_clears_on_success ⟨some ⟨true⟩, [], none, none⟩).2
      ⟨true⟩ rfl rfl

/-- C8 counterexample: at a path whose text contains the not-found phrase,
a transport failure makes SecretExists report false with no error, while
ReadSecret returns a transport error rather than the not-found result, so
exists-false does not coincide with read-would-return-NotFound on every
path. -/
theorem c8_exists_counterexample :
    SecretExists (fun _ => .fail "connection refused") "secret" false
      "foo secret not found" = .ok false ∧
    (fun _ => ClientRead.fail "connection refused")
        (buildPath "secret" false "foo secret not found")
      ≠ ClientRead.notFound ∧
    ReadSecret (fun _ => .fail "connection refused") "secret" false
      "foo secret not found"
      = .error
        "failed to read secret from vault at secret/foo secret not found: connection refused" := by
  refine ⟨rfl, by decide, rfl⟩

/-- C8 (amended): SecretExists reports true exactly when ReadSecret
succeeds; it reports false (with no error) exactly when ReadSecret fails
with an error text containing the not-found phrase — which includes every
genuinely missing secret, and coincides with NotFound whenever the client
does not produce a transport failure at that path. -/
theorem c8_exists_read_agreement (cl : VClient) (mountPath : String)
    (isKVv2 : Bool) (path : String) :
    (SecretExists cl mountPath isKVv2 path = .ok true ↔
       ∃ d, ReadSecret cl mountPath isKVv2 path = .ok d) ∧
    (SecretExists cl mountPath isKVv2 path = .ok false ↔
       ∃ e, ReadSecret cl mountPath isKVv2 path = .error e ∧
         strContains e "secret not found" = true) ∧
    (cl (buildPath mountPath isKVv2 path) = .notFound →
       SecretExists cl mountPath isKVv2 path = .ok false) ∧
    ((∀ msg, cl (buildPath mountPath isKVv2 path) ≠ .fail msg) →
       (SecretExists cl mountPath isKVv2 path = .ok false ↔
          cl (buildPath mountPath isKVv2 path) = .notFound)) := by
  have hnf : cl (buildPath mountPath isKVv2 path) = .notFound →
      SecretExists cl mountPath isKVv2 path = .ok false := by
    intro hc
    cases isKVv2 with
    | false =>
      have h1 := strContains_notFound_v1 (buildPath mountPath false path)
      simp [SecretExists, ReadSecret, hc, h1]
    | true =>
      have h1 := strContains_notFound_v2 "failed to read secret from vault at "
        (buildPath mountPath true path)
      simp [SecretExists, ReadSecret, hc, h1]
  refine ⟨?_, ?_, hnf, ?_⟩
  · unfold SecretExists
    cases hr : ReadSecret cl mountPath isKVv2 path with
    | ok d => simp
    | error e =>
      by_cases hc : strContains e "secret not found" = true <;> simp [hc]
  · unfold SecretExists
    cases hr : ReadSecret cl mountPath isKVv2 path with
    | ok d => simp
    | error e =>
      by_cases hc : strContains e "secret not found" = true <;> simp [hc]
  · intro hnofail
    constructor
    · intro h
      cases hc : cl (buildPath mountPath isKVv2 path) with
      | ok d => simp [SecretExists, ReadSecret, hc] at h
      | notFound => rfl
      | fail msg => exact absurd hc (hnofail msg)
    · exact hnf

/-- C8 witness: a client with a present secret, a missing secret, and no
transport failures, at a benign path. -/
theorem c8_exists_read_agreement_witness :
    SecretExists (fun p => if p = "secret/data/a" then .ok [("password", VAny.str "x")]
      else .notFound) "secret" true "a" = .ok true ∧
    SecretExists (fun p => if p = "secret/data/a" then .ok [("password", VAny.str "x")]
      else .notFound) "secret" true "b" = .ok false := by
  constructor
  · exact (c8_exists_read_agreement
      (fun p => if p = "secret/data/a" then .ok [("password", VAny.str "x")] else .notFound)
      "secret" true "a").1.mpr ⟨[("password", VAny.str "x")], rfl⟩
  · exact (c8_exists_read_agreement
      (fun p => if p = "secret/data/a" then .ok [("password", VAny.str "x")] else .notFound)
      "secret" true "b").2.2.1 (by decide)

/-- C7: a sync-label spec that is a bare key (no separator) matches
exactly the label maps containing that key with any value; a spec of the
form key=value (separator-free key, nonempty value) matches exactly the
label maps binding that key to that exact value; a nil or empty label set
matches no engine. -/
theorem c7_sync_label_grammar (labels : Labels) (key value spec : String) :
    ('=' ∉ key.data →
       matchesSyncSpec key (some labels) = (lookupL labels key).isSome) ∧
    ('=' ∉ key.data → value ≠ "" →
       matchesSyncSpec (key ++ "=" ++ value) (some labels)
         = (lookupL labels key == some value)) ∧
    matchesSyncSpec spec none = false ∧
    matchesSyncSpec spec (some []) = false := by
  refine ⟨fun hk => ?_, fun hk hv => ?_, ?_, ?_⟩
  · have hp : parseSyncLabel key = (key, "") := by
      unfold parseSyncLabel
      rw [splitEq_eq_none key.data hk]
    simp [matchesSyncSpec, hp, MatchesLabels]
  · have hdata : (key ++ "=" ++ value).data = key.data ++ '=' :: value.data := by
      rw [String.data_append, String.data_append]
      simp
    have hp : parseSyncLabel (key ++ "=" ++ value) = (key, value) := by
      unfold parseSyncLabel
      rw [hdata, splitEq_eq_some key.data value.data hk]
    have hvb : (value == "") = false := by
      simpa using hv
    simp only [matchesSyncSpec, hp, MatchesLabels, hvb, Bool.false_eq_true, if_false]
    cases lookupL labels key with
    | none => simp
    | some w => simp [beq_iff_eq, eq_comm]
  · simp [matchesSyncSpec, MatchesLabels]
  · unfold matchesSyncSpec MatchesLabels
    cases hq : ((parseSyncLabel spec).2 == "") <;> simp [hq, lookupL]

/-- C7 witness: the bare-key spec team matches any value of that key, the
exact spec matches only the exact value, and an empty set matches none. -/
theorem c7_sync_label_grammar_witness :
    matchesSyncSpec "team" (some [("team", "a")]) = true ∧
    matchesSyncSpec "team" (some [("team", "b")]) = true ∧
    matchesSyncSpec ("team" ++ "=" ++ "a") (some [("team", "a")]) = true ∧
    matchesSyncSpec ("team" ++ "=" ++ "a") (some [("team", "b")]) = false ∧
    matchesSyncSpec "team" (some []) = false := by
  refine ⟨?_, ?_, ?_, ?_, ?_⟩
  · rw [(c7_sync_label_grammar [("team", "a")] "team" "" "x").1 (by decide)]; decide
  · rw [(c7_sync_label_grammar [("team", "b")] "team" "" "x").1 (by decide)]; decide
  · rw [(c7_sync_label_grammar [("team", "a")] "team" "a" "x").2.1 (by decide) (by decide)]
    decide
  · rw [(c7_sync_label_grammar [("team", "b")] "team" "a" "x").2.1 (by decide) (by decide)]
    decide
  · exact (c7_sync_label_grammar [] "team" "" "team").2.2.2

/-- C6: with a global sync label configured and a record lacking it, the
pass skips with no state change: no finalizer add, no store reads or
writes, no status upsert. -/
theorem c6_sync_label_skip (ctx : ReconcileCtx) (rec : CredentialRecord)
    (hcfg : ctx.syncLabel ≠ "")
    (hl : lacksSyncLabel rec.labels ctx.syncLabel = true) :
    Reconcile ctx rec = ⟨true, false, false, [], 0, false⟩ := by
  have hb : (ctx.syncLabel != "") = true := by simpa using hcfg
  simp [Reconcile, hb, hl]

/-- C6 witness: an unlabeled record with a configured sync label skips. -/
theorem c6_sync_label_skip_witness :
    Reconcile
      ⟨"sync-enabled", "region", fun v => .ok v.hostname, ⟨[], fun _ => false, fun _ => false⟩,
        false, [], [⟨"b1", [("region", "r1")], some "h1", none⟩]⟩
      ⟨"cred1", some [("team", "a")], false, false, some ("admin", "pw")⟩
      = ⟨true, false, false, [], 0, false⟩ := by
  exact c6_sync_label_skip _ _ (by decide) (by decide)

/-- C10: a record whose label map binds the configured sync-label key to
the empty string is admitted by the setup event-filter predicate (key
existence alone) yet skipped by the reconciler with no finalizer add and
no writes. -/
theorem c10_empty_sync_label_value (ctx : ReconcileCtx) (rec : CredentialRecord)
    (ls : Labels) (hcfg : ctx.syncLabel ≠ "") (hrec : rec.labels = some ls)
    (hv : lookupL ls ctx.syncLabel = some "") :
    labelPredicate ctx.syncLabel rec.labels = true ∧
    Reconcile ctx rec = ⟨true, false, false, [], 0, false⟩ := by
  constructor
  · simp [labelPredicate, hrec, hv]
  · have hl : lacksSyncLabel rec.labels ctx.syncLabel = true := by
      simp [lacksSyncLabel, hrec, hv]
    have hb : (ctx.syncLabel != "") = true := by simpa using hcfg
    simp [Reconcile, hb, hl]

/-- C10 witness: a record labeled sync-enabled with empty value passes the
event filter but is skipped by Reconcile. -/
theorem c10_empty_sync_label_value_witness :
    labelPredicate "sync-enabled" (some [("sync-enabled", "")]) = true ∧
    Reconcile
      ⟨"sync-enabled", "region", fun v => .ok v.hostname, ⟨[], fun _ => false, fun _ => false⟩,
        false, [], [⟨"b1", [("region", "r1")], some "h1", none⟩]⟩
      ⟨"cred1", some [("sync-enabled", "")], false, false, some ("admin", "pw")⟩
      = ⟨true, false, false, [], 0, false⟩ := by
  exact c10_empty_sync_label_value
    ⟨"sync-enabled", "region", fun v => .ok v.hostname, ⟨[], fun _ => false, fun _ => false⟩,
      false, [], [⟨"b1", [("region", "r1")], some "h1", none⟩]⟩
    ⟨"cred1", some [("sync-enabled", "")], false, false, some ("admin", "pw")⟩
    [("sync-enabled", "")] (by decide) rfl (by decide)

/-- C1: for a (destination, device) pair whose path renders, the sync
loop issues a write call exactly when the path is absent from the store,
the stored password field is missing or not a string, or the stored
password differs from the current one; when the stored password matches,
the pair issues no write and is recorded Success.  The accumulator is
arbitrary, so this covers every pair of a reconciliation pass in both
the single-engine and the multi-engine loop. -/
theorem c1_write_iff_needed (pb : PathBuilderFn)
    (regionLabelKey username password : String) (acc : SyncAcc) (bmc : BMC)
    (path : String)
    (hpb : pb ⟨ExtractRegionFromBMC bmc regionLabelKey, GetHostnameFromBMC bmc, username⟩
      = .ok path) :
    ((processBMC pb regionLabelKey username password acc bmc).writeCalls
        = acc.writeCalls ++ [path] ↔
      (lookupL acc.backend.store path = none ∨
       (∃ d, lookupL acc.backend.store path = some d ∧
          ∀ s, lookupL d "password" ≠ some (VAny.str s)) ∨
       (∃ d s, lookupL acc.backend.store path = some d ∧
          lookupL d "password" = some (VAny.str s) ∧ s ≠ password))) ∧
    (∀ d, lookupL acc.backend.store path = some d →
       lookupL d "password" = some (VAny.str password) →
       (processBMC pb regionLabelKey username password acc bmc).writeCalls
           = acc.writeCalls ∧
       (processBMC pb regionLabelKey username password acc bmc).syncSuccess
           = acc.syncSuccess + 1 ∧
       (processBMC pb regionLabelKey username password acc bmc).backendPaths
           = acc.backendPaths ++
             [⟨path, bmc.name, ExtractRegionFromBMC bmc regionLabelKey,
               GetHostnameFromBMC bmc, username, .success, none⟩]) := by
  constructor
  · rw [← needsUpdate_iff acc.backend path password]
    simp only [processBMC, hpb]
    by_cases hn : needsUpdate acc.backend path password
    · by_cases hw : acc.backend.writeFails path
      · simp [hn, hw]
      · simp [hn, hw]
    · simp [hn]
  · intro d hd hp
    have hn : needsUpdate acc.backend path password = false := by
      simp [needsUpdate, hd, hp]
    simp [processBMC, hpb, hn]

/-- C1 witness: a store already holding the matching password issues no
write; a differing password issues exactly one write call. -/
theorem c1_write_iff_needed_witness :
    (processBMC (fun v => .ok v.hostname) "region" "admin" "pw"
        (initAcc ⟨[("h1", [("password", VAny.str "pw")])], fun _ => false, fun _ => false⟩)
        ⟨"b1", [], some "h1", none⟩).writeCalls = [] ∧
    (processBMC (fun v => .ok v.hostname) "region" "admin" "pw"
        (initAcc ⟨[("h1", [("password", VAny.str "pw")])], fun _ => false, fun _ => false⟩)
        ⟨"b1", [], some "h1", none⟩).syncSuccess = 1 ∧
    (processBMC (fun v => .ok v.hostname) "region" "admin" "pw"
        (initAcc ⟨[("h1", [("password", VAny.str "old")])], fun _ => false, fun _ => false⟩)
        ⟨"b1", [], some "h1", none⟩).writeCalls = ["h1"] := by
  have h1 := (c1_write_iff_needed (fun v => .ok v.hostname) "region" "admin" "pw"
    (initAcc ⟨[("h1", [("password", VAny.str "pw")])], fun _ => false, fun _ => false⟩)
    ⟨"b1", [], some "h1", none⟩ "h1" rfl).2
    [("password", VAny.str "pw")] (by decide) (by decide)
  have h2 := (c1_write_iff_needed (fun v => .ok v.hostname) "region" "admin" "pw"
    (initAcc ⟨[("h1", [("password", VAny.str "old")])], fun _ => false, fun _ => false⟩)
    ⟨"b1", [], some "h1", none⟩ "h1" rfl).1.mpr
    (Or.inr (Or.inr ⟨[("password", VAny.str "old")], "old", by decide, by decide, by decide⟩))
  exact ⟨h1.1, h1.2.1, h2⟩

/-- C2: with the finalizer set and every referencing device rendering a
path, deletion handling issues exactly one delete call per path — the
backend state (including which delete calls fail) never changes the call
count, the status-record removal, or the finalizer removal — and any
failure to acquire the backend, the path builder, or the credentials
before path deletion still removes the finalizer with no delete calls. -/
theorem c2_deletion_cleanup (ctx : DeletionCtx) (syncStatusExists : Bool)
    (b : SimBackend) :
    (ctx.backendAvail = true → ctx.pathBuilderAvail = true →
     ctx.regionKeyAvail = true → ctx.credsOk = true → ctx.findOk = true →
     (∀ bmc ∈ ctx.bmcs, ∃ p,
        ctx.pb ⟨ExtractRegionFromBMC bmc ctx.regionLabelKey, GetHostnameFromBMC bmc,
          ctx.username⟩ = .ok p) →
       (handleDeletion ctx true syncStatusExists b).1.deleteCalls.length
           = ctx.bmcs.length ∧
       (handleDeletion ctx true syncStatusExists b).1.syncStatusRemoved
           = syncStatusExists ∧
       (handleDeletion ctx true syncStatusExists b).1.finalizerRemoved = true) ∧
    (ctx.backendAvail = false →
       (handleDeletion ctx true syncStatusExists b).1 = ⟨[], syncStatusExists, true⟩) ∧
    (ctx.pathBuilderAvail = false →
       (handleDeletion ctx true syncStatusExists b).1.deleteCalls = [] ∧
       (handleDeletion ctx true syncStatusExists b).1.finalizerRemoved = true) ∧
    (ctx.credsOk = false →
       (handleDeletion ctx true syncStatusExists b).1.deleteCalls = [] ∧
       (handleDeletion ctx true syncStatusExists b).1.finalizerRemoved = true) := by
  refine ⟨fun hb hp hr hc hf hall => ?_, fun hb => ?_, fun hp => ?_, fun hc => ?_⟩
  · simp only [handleDeletion, hb, hp, hr, hc, hf, Bool.not_true, Bool.false_eq_true,
      if_false]
    exact ⟨deletionLoop_length ctx.pb ctx.regionLabelKey ctx.username ctx.bmcs b hall,
      by trivial, by trivial⟩
  · simp [handleDeletion, hb]
  · cases hb : ctx.backendAvail with
    | false => simp [handleDeletion, hb]
    | true => simp [handleDeletion, hb, hp]
  · cases hb : ctx.backendAvail with
    | false => simp [handleDeletion, hb]
    | true =>
      cases hp : ctx.pathBuilderAvail with
      | false => simp [handleDeletion, hb, hp]
      | true =>
        cases hr : ctx.regionKeyAvail with
        | false => simp [handleDeletion, hb, hp, hr]
        | true => simp [handleDeletion, hb, hp, hr, hc]

/-- C2 witness: two referencing devices, one delete call failing, still
two delete calls, status removed, finalizer cleared; and an unavailable
backend still clears the finalizer. -/
theorem c2_deletion_cleanup_witness :
    ((handleDeletion
        ⟨true, true, true, true, true, fun v => .ok v.hostname, "region", "admin",
          [⟨"b1", [], some "h1", none⟩, ⟨"b2", [], some "h2", none⟩]⟩
        true true
        ⟨[("h1", [("password", VAny.str "pw")])], fun _ => false,
          fun p => p = "h1"⟩).1.deleteCalls.length = 2 ∧
     (handleDeletion
        ⟨true, true, true, true, true, fun v => .ok v.hostname, "region", "admin",
          [⟨"b1", [], some "h1", none⟩, ⟨"b2", [], some "h2", none⟩]⟩
        true true
        ⟨[("h1", [("password", VAny.str "pw")])], fun _ => false,
          fun p => p = "h1"⟩).1.syncStatusRemoved = true ∧
     (handleDeletion
        ⟨true, true, true, true, true, fun v => .ok v.hostname, "region", "admin",
          [⟨"b1", [], some "h1", none⟩, ⟨"b2", [], some "h2", none⟩]⟩
        true true
        ⟨[("h1", [("password", VAny.str "pw")])], fun _ => false,
          fun p => p = "h1"⟩).1.finalizerRemoved = true) ∧
    (handleDeletion
        ⟨false, true, true, true, true, fun v => .ok v.hostname, "region", "admin",
          [⟨"b1", [], some "h1", none⟩]⟩
        true true ⟨[], fun _ => false, fun _ => false⟩).1 = ⟨[], true, true⟩ := by
  constructor
  · exact (c2_deletion_cleanup
      ⟨true, true, true, true, true, fun v => .ok v.hostname, "region", "admin",
        [⟨"b1", [], some "h1", none⟩, ⟨"b2", [], some "h2", none⟩]⟩
      true
      ⟨[("h1", [("password", VAny.str "pw")])], fun _ => false, fun p => p = "h1"⟩).1
      rfl rfl rfl rfl rfl
      (by
        intro bmc hbmc
        simp only [List.mem_cons, List.mem_singleton] at hbmc
        rcases hbmc with h | h | h
        · exact ⟨"h1", by subst h; rfl⟩
        · exact ⟨"h2", by subst h; rfl⟩
        · cases h)
  · exact (c2_deletion_cleanup
      ⟨false, true, true, true, true, fun v => .ok v.hostname, "region", "admin",
        [⟨"b1", [], some "h1", none⟩]⟩
      true ⟨[], fun _ => false, fun _ => false⟩).2.1 rfl

/-- C3: a failing write isolates to its pair: every pair contributes
exactly one status entry and the success and failure counters always sum
to the pair count, so one failure among N pairs gives N-1 successes; the
persisted record reports exactly these counters, and the derived coarse
condition is fully-synced, partially-synced, or sync-failed according to
the counters. -/
theorem c3_partial_failure (pb : PathBuilderFn) (regionLabelKey : String)
    (b : SimBackend) (bmcs : List BMC) (username password : String)
    (acc : SyncAcc)
    (hacc : acc = reconcileSingleEngine pb regionLabelKey b bmcs username password) :
    acc.backendPaths.length = bmcs.length ∧
    acc.syncSuccess + acc.syncErrors = bmcs.length ∧
    (acc.syncErrors = 1 → acc.syncSuccess = bmcs.length - 1) ∧
    (∀ prev,
      (updateSyncStatus prev acc.backendPaths bmcs.length acc.syncSuccess
        acc.syncErrors).successfulPaths = acc.syncSuccess ∧
      (updateSyncStatus prev acc.backendPaths bmcs.length acc.syncSuccess
        acc.syncErrors).failedPaths = acc.syncErrors) ∧
    (acc.syncErrors = 0 →
      deriveCondition acc.syncSuccess acc.syncErrors = ⟨"Synced", true, "AllPathsSynced"⟩) ∧
    (acc.syncSuccess > 0 → acc.syncErrors > 0 →
      deriveCondition acc.syncSuccess acc.syncErrors = ⟨"Synced", false, "PartialSync"⟩) ∧
    (acc.syncSuccess = 0 → acc.syncErrors > 0 →
      deriveCondition acc.syncSuccess acc.syncErrors = ⟨"Synced", false, "SyncFailed"⟩) := by
  subst hacc
  obtain ⟨hlen, hsum⟩ := foldl_counts pb regionLabelKey username password bmcs (initAcc b)
  refine ⟨?_, ?_, ?_, fun prev => ⟨rfl, rfl⟩, fun h0 => ?_, fun hs hf => ?_, fun hs hf => ?_⟩
  · simpa [reconcileSingleEngine, initAcc] using hlen
  · simpa [reconcileSingleEngine, initAcc] using hsum
  · intro h1
    have hs : (reconcileSingleEngine pb regionLabelKey b bmcs username password).syncSuccess
        + (reconcileSingleEngine pb regionLabelKey b bmcs username password).syncErrors
        = bmcs.length := by
      simpa [reconcileSingleEngine, initAcc] using hsum
    omega
  · simp [deriveCondition, h0]
  · have : ¬ (reconcileSingleEngine pb regionLabelKey b bmcs username password).syncErrors = 0 := by
      omega
    simp [deriveCondition, this, hs]
  · have : ¬ (reconcileSingleEngine pb regionLabelKey b bmcs username password).syncErrors = 0 := by
      omega
    simp [deriveCondition, this, hs]

/-- C3 witness: two pairs, one failing write: one success, one failure,
and the partial-sync condition. -/
theorem c3_partial_failure_witness :
    (reconcileSingleEngine (fun v => .ok v.hostname) "region"
        ⟨[], fun p => p = "h2", fun _ => false⟩
        [⟨"b1", [], some "h1", none⟩, ⟨"b2", [], some "h2", none⟩]
        "admin" "pw").syncSuccess = 1 ∧
    (reconcileSingleEngine (fun v => .ok v.hostname) "region"
        ⟨[], fun p => p = "h2", fun _ => false⟩
        [⟨"b1", [], some "h1", none⟩, ⟨"b2", [], some "h2", none⟩]
        "admin" "pw").syncErrors = 1 ∧
    (reconcileSingleEngine (fun v => .ok v.hostname) "region"
        ⟨[], fun p => p = "h2", fun _ => false⟩
        [⟨"b1", [], some "h1", none⟩, ⟨"b2", [], some "h2", none⟩]
        "admin" "pw").syncSuccess = 2 - 1 ∧
    deriveCondition 1 1 = ⟨"Synced", false, "PartialSync"⟩ := by
  have hs : (reconcileSingleEngine (fun v => .ok v.hostname) "region"
      ⟨[], fun p => p = "h2", fun _ => false⟩
      [⟨"b1", [], some "h1", none⟩, ⟨"b2", [], some "h2", none⟩]
      "admin" "pw").syncSuccess = 1 := by decide
  have hf : (reconcileSingleEngine (fun v => .ok v.hostname) "region"
      ⟨[], fun p => p = "h2", fun _ => false⟩
      [⟨"b1", [], some "h1", none⟩, ⟨"b2", [], some "h2", none⟩]
      "admin" "pw").syncErrors = 1 := by decide
  refine ⟨hs, hf, ?_, ?_⟩
  · have := (c3_partial_failure (fun v => .ok v.hostname) "region"
      ⟨[], fun p => p = "h2", fun _ => false⟩
      [⟨"b1", [], some "h1", none⟩, ⟨"b2", [], some "h2", none⟩]
      "admin" "pw" _ rfl).2.2.1 hf
    simpa using this
  · have h := (c3_partial_failure (fun v => .ok v.hostname) "region"
      ⟨[], fun p => p = "h2", fun _ => false⟩
      [⟨"b1", [], some "h1", none⟩, ⟨"b2", [], some "h2", none⟩]
      "admin" "pw" _ rfl).2.2.2.2.2.1 (by rw [hs]; omega) (by rw [hf]; omega)
    rw [hs, hf] at h
    exact h

end BMCSecretOperator
